import Mathlib

/-!
Verification of the token-comparison and perceptual-scoring engine of the
design-system extractor (compare-design-systems script): color parsing, CIE
Lab conversion, the CIEDE2000 perceptual distance, WCAG contrast auditing,
and the per-category matching/scoring algorithms for colors, typography,
spacing and border radius.

Modelling conventions: the source's floating-point arithmetic is modelled
over `ℝ`; the `Infinity` sentinel returned by `deltaE2000` on unparseable
input is modelled by `⊤ : EReal`; JavaScript's `Math.round` is modelled as
`⌊x + 1/2⌋` (round half up); `Math.atan2 y x` is modelled as the argument of
the complex number `x + y i`, with which it agrees everywhere (including
`atan2 0 0 = 0`); JavaScript strings are Lean `String`s and `Set` dedup
keeps the first occurrence, as `new Set` iteration does.
-/

namespace DesignSystem

/-- An RGB triplet as produced by `hexToRgb`; each channel is a natural
number (the source guarantees `0–255` by parsing two hex digits). -/
structure Rgb where
  r : ℕ
  g : ℕ
  b : ℕ
deriving DecidableEq, Repr

/-- Value of a hexadecimal digit, as accepted by the case-insensitive
character class of the regular expression in `hexToRgb`. -/
def hexDigitVal (c : Char) : Option ℕ :=
  if '0' ≤ c ∧ c ≤ '9' then some (c.toNat - '0'.toNat)
  else if 'a' ≤ c ∧ c ≤ 'f' then some (c.toNat - 'a'.toNat + 10)
  else if 'A' ≤ c ∧ c ≤ 'F' then some (c.toNat - 'A'.toNat + 10)
  else none

/-- `hex.replace('#', '')`: with a string pattern, JavaScript `replace`
removes only the first occurrence. -/
def removeFirstChar (c : Char) : List Char → List Char
  | [] => []
  | x :: xs => if x = c then xs else x :: removeFirstChar c xs

/-- The anchored pattern `^([a-f\d]{2})([a-f\d]{2})([a-f\d]{2})$/i`: exactly
six hex digits, parsed pairwise into channels. -/
def parseHex6 : List Char → Option Rgb
  | [c1, c2, c3, c4, c5, c6] =>
    match hexDigitVal c1, hexDigitVal c2, hexDigitVal c3,
        hexDigitVal c4, hexDigitVal c5, hexDigitVal c6 with
    | some a, some b, some c, some d, some e, some f =>
      some ⟨16 * a + b, 16 * c + d, 16 * e + f⟩
    | _, _, _, _, _, _ => none
  | _ => none

/-- `hexToRgb`: falsy (empty) input yields `null`; otherwise strip the first
`#`, expand 3-digit shorthand by doubling each digit, then match the
anchored 6-hex-digit pattern. -/
def hexToRgb (hex : String) : Option Rgb :=
  if hex = "" then none
  else
    let h := removeFirstChar '#' hex.toList
    let h2 := if h.length = 3 then
        match h with
        | [a, b, c] => [a, a, b, b, c, c]
        | l => l
      else h
    parseHex6 h2

/-- CIE Lab value `{L, a, b}`. -/
structure LabColor where
  L : ℝ
  a : ℝ
  b : ℝ

noncomputable section
open scoped Classical

/-- Forward sRGB gamma expansion used by `rgbToLab`:
`c > 0.04045 ? ((c + 0.055) / 1.055)^2.4 : c / 12.92`. -/
def gammaExpand (c : ℝ) : ℝ :=
  if c > 0.04045 then ((c + 0.055) / 1.055) ^ (2.4 : ℝ) else c / 12.92

/-- The XYZ→Lab piecewise cube root with `epsilon = 0.008856` and
`kappa = 903.3`. -/
def labF (v : ℝ) : ℝ :=
  if v > 0.008856 then v ^ ((1 : ℝ) / 3) else (903.3 * v + 16) / 116

/-- `rgbToLab`: channels scaled to `[0,1]`, gamma expanded, scaled by 100,
sent through the D65 sRGB matrix, normalized by the D65 reference white and
mapped through `labF`. -/
def rgbToLab (c : Rgb) : LabColor :=
  let r := 100 * gammaExpand ((c.r : ℝ) / 255)
  let g := 100 * gammaExpand ((c.g : ℝ) / 255)
  let b := 100 * gammaExpand ((c.b : ℝ) / 255)
  let x := (r * 0.4124564 + g * 0.3575761 + b * 0.1804375) / 95.047
  let y := (r * 0.2126729 + g * 0.7151522 + b * 0.0721750) / 100.000
  let z := (r * 0.0193339 + g * 0.1191920 + b * 0.9503041) / 108.883
  { L := 116 * labF y - 16
    a := 500 * (labF x - labF y)
    b := 200 * (labF y - labF z) }

/-- `Math.atan2 y x`, modelled as the argument of `x + y i`. -/
def atan2 (y x : ℝ) : ℝ := Complex.arg ⟨x, y⟩

/-- Chroma `C = √(a·a + b·b)` of a Lab value. -/
def chroma (l : LabColor) : ℝ := Real.sqrt (l.a * l.a + l.b * l.b)

/-- The CIEDE2000 `G` compensation factor
`0.5 · (1 − √(C̄⁷ / (C̄⁷ + 25⁷)))` over the mean chroma of the two inputs. -/
def Gfactor (l1 l2 : LabColor) : ℝ :=
  let Cab := (chroma l1 + chroma l2) / 2
  0.5 * (1 - Real.sqrt (Cab ^ 7 / (Cab ^ 7 + 25 ^ 7)))

/-- `a1' = a1 · (1 + G)`. -/
def aAdj1 (l1 l2 : LabColor) : ℝ := l1.a * (1 + Gfactor l1 l2)

/-- `a2' = a2 · (1 + G)`. -/
def aAdj2 (l1 l2 : LabColor) : ℝ := l2.a * (1 + Gfactor l1 l2)

/-- `C1' = √(a1'·a1' + b1·b1)`. -/
def C1p (l1 l2 : LabColor) : ℝ :=
  Real.sqrt (aAdj1 l1 l2 * aAdj1 l1 l2 + l1.b * l1.b)

/-- `C2' = √(a2'·a2' + b2·b2)`. -/
def C2p (l1 l2 : LabColor) : ℝ :=
  Real.sqrt (aAdj2 l1 l2 * aAdj2 l1 l2 + l2.b * l2.b)

/-- `h1'` in degrees, shifted into `[0, 360)` when negative. -/
def h1pAdj (l1 l2 : LabColor) : ℝ :=
  let h := atan2 l1.b (aAdj1 l1 l2) * 180 / Real.pi
  if h < 0 then h + 360 else h

/-- `h2'` in degrees, shifted into `[0, 360)` when negative. -/
def h2pAdj (l1 l2 : LabColor) : ℝ :=
  let h := atan2 l2.b (aAdj2 l1 l2) * 180 / Real.pi
  if h < 0 then h + 360 else h

/-- `Δh'` with the source's four-branch rule. -/
def dhp (l1 l2 : LabColor) : ℝ :=
  if C1p l1 l2 * C2p l1 l2 = 0 then 0
  else if |h2pAdj l1 l2 - h1pAdj l1 l2| ≤ 180 then h2pAdj l1 l2 - h1pAdj l1 l2
  else if h2pAdj l1 l2 - h1pAdj l1 l2 > 180 then
    h2pAdj l1 l2 - h1pAdj l1 l2 - 360
  else h2pAdj l1 l2 - h1pAdj l1 l2 + 360

/-- `ΔH' = 2·√(C1'·C2')·sin(Δh'·π/360)`. -/
def dHp (l1 l2 : LabColor) : ℝ :=
  2 * Real.sqrt (C1p l1 l2 * C2p l1 l2) * Real.sin (dhp l1 l2 * Real.pi / 360)

/-- Mean hue `H̄'` with the source's four-branch rule. -/
def meanHp (l1 l2 : LabColor) : ℝ :=
  if C1p l1 l2 * C2p l1 l2 = 0 then h1pAdj l1 l2 + h2pAdj l1 l2
  else if |h1pAdj l1 l2 - h2pAdj l1 l2| ≤ 180 then
    (h1pAdj l1 l2 + h2pAdj l1 l2) / 2
  else if h1pAdj l1 l2 + h2pAdj l1 l2 < 360 then
    (h1pAdj l1 l2 + h2pAdj l1 l2 + 360) / 2
  else (h1pAdj l1 l2 + h2pAdj l1 l2 - 360) / 2

/-- The `T` hue weighting polynomial of CIEDE2000. -/
def Tterm (l1 l2 : LabColor) : ℝ :=
  let Hp := meanHp l1 l2
  1 - 0.17 * Real.cos ((Hp - 30) * Real.pi / 180)
    + 0.24 * Real.cos (2 * Hp * Real.pi / 180)
    + 0.32 * Real.cos ((3 * Hp + 6) * Real.pi / 180)
    - 0.20 * Real.cos ((4 * Hp - 63) * Real.pi / 180)

/-- `SL = 1 + 0.015·(L̄'−50)² / √(20 + (L̄'−50)²)`. -/
def SL (l1 l2 : LabColor) : ℝ :=
  let Lp := (l1.L + l2.L) / 2
  1 + (0.015 * (Lp - 50) ^ 2) / Real.sqrt (20 + (Lp - 50) ^ 2)

/-- `SC = 1 + 0.045·C̄'`. -/
def SC (l1 l2 : LabColor) : ℝ :=
  1 + 0.045 * ((C1p l1 l2 + C2p l1 l2) / 2)

/-- `SH = 1 + 0.015·C̄'·T`. -/
def SH (l1 l2 : LabColor) : ℝ :=
  1 + 0.015 * ((C1p l1 l2 + C2p l1 l2) / 2) * Tterm l1 l2

/-- The rotation term `RT = −sin(2Δθ·π/180)·RC`. -/
def RT (l1 l2 : LabColor) : ℝ :=
  let Cp := (C1p l1 l2 + C2p l1 l2) / 2
  let Hp := meanHp l1 l2
  let dTheta := 30 * Real.exp (-(((Hp - 275) / 25) ^ 2))
  let RC := 2 * Real.sqrt (Cp ^ 7 / (Cp ^ 7 + 25 ^ 7));
  -Real.sin (2 * dTheta * Real.pi / 180) * RC

/-- The expression under the final CIEDE2000 square root, with weights
`kL = kC = kH = 1`. -/
def radicand (l1 l2 : LabColor) : ℝ :=
  ((l2.L - l1.L) / (1 * SL l1 l2)) ^ 2 +
  ((C2p l1 l2 - C1p l1 l2) / (1 * SC l1 l2)) ^ 2 +
  (dHp l1 l2 / (1 * SH l1 l2)) ^ 2 +
  RT l1 l2 * ((C2p l1 l2 - C1p l1 l2) / (1 * SC l1 l2)) *
    (dHp l1 l2 / (1 * SH l1 l2))

/-- CIEDE2000 over two Lab values. -/
def deltaE2000Lab (l1 l2 : LabColor) : ℝ := Real.sqrt (radicand l1 l2)

/-- `deltaE2000` on color strings; evaluates to `Infinity` (`⊤ : EReal`) when
either input fails to parse as a hex color. -/
def deltaE2000 (hex1 hex2 : String) : EReal :=
  match hexToRgb hex1, hexToRgb hex2 with
  | some rgb1, some rgb2 =>
    ((deltaE2000Lab (rgbToLab rgb1) (rgbToLab rgb2) : ℝ) : EReal)
  | _, _ => ⊤

end

/-! ### `normalizeColor` -/

/-- Numeric value of the digits `0-9`. -/
def digitsToNat (l : List Char) : ℕ :=
  l.foldl (fun n c => 10 * n + (c.toNat - '0'.toNat)) 0

/-- `String.prototype.toLowerCase` (ASCII, sufficient for color syntax). -/
def jsToLower (l : List Char) : List Char := l.map Char.toLower

/-- `toLowerCase` as a string-to-string map. -/
def jsLowerStr (s : String) : String := String.mk (jsToLower s.toList)

/-- A JavaScript number that may be `NaN` (`parseFloat` of a junk capture).
`nan` is not strictly-equal to itself but is found by `Set.has` and
`Array.includes` (SameValueZero), which the derived equality models. -/
inductive JsNum where
  | nan
  | val (q : ℚ)
deriving DecidableEq, Repr

/-- `===` on numbers: `NaN === NaN` is false. -/
def jsStrictEq : JsNum → JsNum → Bool
  | .val a, .val b => a = b
  | _, _ => false

/-- `Math.abs(proj - ref) <= 2`; false when either side is `NaN`. -/
def jsAbsDiffLe2 : JsNum → JsNum → Bool
  | .val a, .val b => |a - b| ≤ 2
  | _, _ => false

/-- `Math.abs(proj - ref)` for the `diff` field of a close match (only
reached when both sides are numbers). -/
def jsAbsDiff : JsNum → JsNum → ℚ
  | .val a, .val b => |a - b|
  | _, _ => 0

/-- Characters of the class `[\d.]`. -/
def isDigitDot (c : Char) : Bool := c.isDigit || c = '.'

/-- The capture of the first `/([\d.]+)/` match, scanning left to right. -/
def firstDigitRun : List Char → Option (List Char)
  | [] => none
  | c :: rest =>
    if isDigitDot c then some ((c :: rest).takeWhile isDigitDot)
    else firstDigitRun rest

/-- `parseFloat` restricted to a `[0-9.]` run: integer part, then an
optional fraction that stops at a second dot; no digits at all is `NaN`
(`none`). -/
def parseFloatRun (l : List Char) : Option ℚ :=
  let intPart := l.takeWhile Char.isDigit
  let rest := l.dropWhile Char.isDigit
  match rest with
  | '.' :: rest2 =>
    let fracPart := rest2.takeWhile Char.isDigit
    if intPart = [] ∧ fracPart = [] then none
    else some ((digitsToNat intPart : ℚ) +
      (digitsToNat fracPart : ℚ) / (10 ^ fracPart.length))
  | _ => if intPart = [] then none else some ((digitsToNat intPart : ℚ))

/-- JavaScript `parseFloat` on a raw string (decimal syntax; exponents do
not occur in the CSS-length inputs this is applied to): optional leading
whitespace and sign, then digits with an optional fraction. -/
def jsParseFloat (s : String) : Option ℚ :=
  let l := s.toList.dropWhile (·.isWhitespace)
  match l with
  | '-' :: rest =>
    (parseFloatRun (rest.takeWhile isDigitDot)).map (fun q => -q)
  | '+' :: rest => parseFloatRun (rest.takeWhile isDigitDot)
  | _ => parseFloatRun (l.takeWhile isDigitDot)

/-- JavaScript `Math.round`: round half toward positive infinity. -/
def jsRound (q : ℚ) : ℤ := ⌊q + 1 / 2⌋

/-- `[...new Set(xs)]`: de-duplicate keeping first occurrences, in order. -/
def dedupFirstAux (seen : List String) : List String → List String
  | [] => []
  | x :: xs =>
    if x ∈ seen then dedupFirstAux seen xs
    else x :: dedupFirstAux (x :: seen) xs

/-- `[...new Set(xs)]`. -/
def dedupFirst (l : List String) : List String := dedupFirstAux [] l

/-! ### `compareSpacing` -/

/-- A spacing entry: a raw number or a string such as `"16px"`. -/
inductive SpacingVal where
  | num (q : ℚ)
  | str (s : String)

/-- `parseValue` in `compareSpacing`: numbers pass through; strings yield
`parseFloat` of their first `[\d.]+` run (which may be `NaN`), or `null`
when there is no run. -/
def parseSpacingValue : SpacingVal → Option JsNum
  | .num q => some (.val q)
  | .str s =>
    match firstDigitRun s.toList with
    | some run =>
      some (match parseFloatRun run with
        | some q => .val q
        | none => .nan)
    | none => none

/-- The reference spacing document (`referenceSpacing.scale`). -/
structure RefSpacing where
  scale : List SpacingVal

/-- Results of `compareSpacing`; the source renders the values with a `px`
suffix, which is dropped here. -/
structure SpacingResults where
  matched : List (JsNum × JsNum)
  close : List (JsNum × JsNum × ℚ)
  missing : List JsNum
  extra : List JsNum
  score : ℤ

/-- The exact scan of `compareSpacing`: the first reference strictly equal
to the project value. The claimed-reference set is not consulted here. -/
def findExactSpacing (p : JsNum) : List JsNum → Option JsNum
  | [] => none
  | r :: rs => if jsStrictEq p r then some r else findExactSpacing p rs

/-- The close scan of `compareSpacing`: the first unclaimed reference within
2 units. -/
def findCloseSpacing (p : JsNum) (mr : List JsNum) : List JsNum → Option JsNum
  | [] => none
  | r :: rs =>
    if r ∈ mr then findCloseSpacing p mr rs
    else if jsAbsDiffLe2 p r then some r
    else findCloseSpacing p mr rs

/-- The main loop of `compareSpacing` over project values, carrying the
matched / close / extra accumulators and the claimed-reference set. -/
def spacingLoop (refScale : List JsNum) :
    List JsNum → List (JsNum × JsNum) → List (JsNum × JsNum × ℚ) →
    List JsNum → List JsNum →
    List (JsNum × JsNum) × List (JsNum × JsNum × ℚ) × List JsNum × List JsNum
  | [], m, c, x, mr => (m, c, x, mr)
  | p :: ps, m, c, x, mr =>
    match findExactSpacing p refScale with
    | some r => spacingLoop refScale ps (m ++ [(p, r)]) c x (r :: mr)
    | none =>
      match findCloseSpacing p mr refScale with
      | some r => spacingLoop refScale ps m (c ++ [(p, r, jsAbsDiff p r)]) x (r :: mr)
      | none => spacingLoop refScale ps m c (x ++ [p]) mr

/-- `compareSpacing`. -/
def compareSpacing (projectSpacing : List SpacingVal)
    (referenceSpacing : RefSpacing) : SpacingResults :=
  let refScale := referenceSpacing.scale.filterMap parseSpacingValue
  let projScale := projectSpacing.filterMap parseSpacingValue
  let res := spacingLoop refScale projScale [] [] [] []
  let missing := refScale.filter (fun r => r ∉ res.2.2.2)
  let total : ℚ := if refScale.length = 0 then 1 else refScale.length
  { matched := res.1, close := res.2.1, missing := missing, extra := res.2.2.1,
    score := jsRound ((((res.1.length : ℚ) + (res.2.1.length : ℚ) * (7 / 10)) / total) * 100) }

/-! ### `compareTypography` -/

/-- A font-family entry: a plain string or an object with a `family`
field. -/
inductive FontVal where
  | str (s : String)
  | fam (family : String)

/-- `typeof f === 'string' ? f : f.family`. -/
def fontName : FontVal → String
  | .str s => s
  | .fam f => f

/-- The reference typography document (`referenceTypography.fontFamilies`). -/
structure RefTypography where
  fontFamilies : List FontVal

/-- Results of `compareTypography`. -/
structure TypographyResults where
  matched : List (String × String)
  missing : List String
  extra : List String
  score : ℤ

/-- `haystack.includes(needle)`: substring containment. -/
def strIncludes (hay needle : List Char) : Bool :=
  match hay with
  | [] => needle.isEmpty
  | _ :: t => needle.isPrefixOf hay || strIncludes t needle

/-- `s.split(' ')[0]`. -/
def firstWord (l : List Char) : List Char := l.takeWhile (fun c => c ≠ ' ')

/-- The fuzzy font match: substring containment in either direction, or
equal first space-separated word. -/
def findFontMatch (proj : String) : List String → Option String
  | [] => none
  | ref :: rest =>
    if strIncludes ref.toList proj.toList || strIncludes proj.toList ref.toList
        || firstWord ref.toList = firstWord proj.toList then
      some ref
    else findFontMatch proj rest

/-- The loop of `compareTypography` over project fonts. -/
def typographyLoop (refFonts : List String) :
    List String → List (String × String) → List String →
    List (String × String) × List String
  | [], m, x => (m, x)
  | p :: ps, m, x =>
    match findFontMatch p refFonts with
    | some r => typographyLoop refFonts ps (m ++ [(p, r)]) x
    | none => typographyLoop refFonts ps m (x ++ [p])

/-- `compareTypography`. -/
def compareTypography (projectFonts : List String)
    (referenceTypography : RefTypography) : TypographyResults :=
  let refFonts := referenceTypography.fontFamilies.map (fun f => jsLowerStr (fontName f))
  let projFonts := projectFonts.map jsLowerStr
  let res := typographyLoop refFonts projFonts [] []
  let missing := refFonts.filter (fun ref => res.1.all (fun pr => pr.2 != ref))
  let total : ℚ := if refFonts.length = 0 then 1 else refFonts.length
  { matched := res.1, missing := missing, extra := res.2,
    score := jsRound (((res.1.length : ℚ) / total) * 100) }

/-! ### `compareBorderRadius` -/

/-- A border-radius entry: a string with unit or an object with a `value`
field (the shapes named by the input interface). -/
inductive RadiusVal where
  | str (s : String)
  | obj (value : String)

/-- `parseValue` in `compareBorderRadius`: objects go through
`parseFloat(v.value) || null`, where both `NaN` and `0` are falsy; other
values go through the first-`[\d.]+`-run regex as in spacing. -/
def parseRadiusValue : RadiusVal → Option JsNum
  | .obj v =>
    match jsParseFloat v with
    | some q => if q = 0 then none else some (.val q)
    | none => none
  | .str s =>
    match firstDigitRun s.toList with
    | some run =>
      some (match parseFloatRun run with
        | some q => .val q
        | none => .nan)
    | none => none

/-- Results of `compareBorderRadius`. -/
structure RadiusResults where
  matched : List JsNum
  missing : List JsNum
  extra : List JsNum
  score : ℤ

/-- `compareBorderRadius`: membership matching with no claimed set and no
close pass (`Array.includes`, SameValueZero). -/
def compareBorderRadius (projectRadius : List RadiusVal)
    (referenceRadius : List RadiusVal) : RadiusResults :=
  let refValues := referenceRadius.filterMap parseRadiusValue
  let projValues := projectRadius.filterMap parseRadiusValue
  let matched := projValues.filter (fun p => refValues.contains p)
  let extra := projValues.filter (fun p => !refValues.contains p)
  let missing := refValues.filter (fun r => !projValues.contains r)
  let total : ℚ := if refValues.length = 0 then 1 else refValues.length
  { matched := matched, missing := missing, extra := extra,
    score := jsRound (((matched.length : ℚ) / total) * 100) }

/-! ### WCAG accessibility audit -/

/-- A palette entry as consumed by the comparison and the audit: only the
`value` field is read. -/
structure PaletteEntry where
  value : String
deriving DecidableEq, Repr

/-- The reference `colors` document: palette plus the semantic groups
(groups absent in the JSON are modelled as empty lists, matching the
`?.… || []` access pattern). -/
structure RefColors where
  palette : List PaletteEntry
  backgrounds : List PaletteEntry
  text : List PaletteEntry
  borders : List PaletteEntry
  accents : List PaletteEntry

/-- Issue severity. -/
inductive Severity where
  | error
  | warning
deriving DecidableEq, Repr

noncomputable section
open scoped Classical

/-- WCAG relative-luminance gamma:
`c <= 0.03928 ? c/12.92 : ((c + 0.055)/1.055)^2.4`. -/
def gammaW (c : ℝ) : ℝ :=
  if c ≤ 0.03928 then c / 12.92 else ((c + 0.055) / 1.055) ^ (2.4 : ℝ)

/-- `getLuminance`: 0 for unparseable input, else the WCAG weighted sum. -/
def getLuminance (hex : String) : ℝ :=
  match hexToRgb hex with
  | none => 0
  | some c =>
    0.2126 * gammaW ((c.r : ℝ) / 255) + 0.7152 * gammaW ((c.g : ℝ) / 255) +
      0.0722 * gammaW ((c.b : ℝ) / 255)

/-- `getContrastRatio`: larger luminance over smaller, both offset by 0.05. -/
def getContrastRatio (hex1 hex2 : String) : ℝ :=
  let l1 := getLuminance hex1
  let l2 := getLuminance hex2
  let lighter := max l1 l2
  let darker := min l1 l2
  (lighter + 0.05) / (darker + 0.05)

/-- The classification returned by `checkWCAG` (the source also renders the
ratio with `toFixed(2)`, kept here as the exact real). -/
structure WCAGResult where
  ratioValue : ℝ
  AAnormalText : Prop
  AAlargeText : Prop
  AAuiComponents : Prop
  AAAnormalText : Prop
  AAAlargeText : Prop

/-- `checkWCAG`. -/
def checkWCAG (foreground background : String) : WCAGResult :=
  let r := getContrastRatio foreground background
  { ratioValue := r
    AAnormalText := r ≥ 4.5
    AAlargeText := r ≥ 3
    AAuiComponents := r ≥ 3
    AAAnormalText := r ≥ 7
    AAAlargeText := r ≥ 4.5 }

/-- A contrast issue (`type: 'contrast'` and the message string carry no
further information and are omitted). -/
structure Issue where
  severity : Severity
  foreground : String
  background : String
  ratioValue : ℝ

/-- A passing combination. -/
structure Combo where
  foreground : String
  background : String
  ratioValue : ℝ

/-- Inner text loop of `auditAccessibility` for one background. -/
def textInner (bg : String) : List String → List Issue × List Combo
  | [] => ([], [])
  | t :: rest =>
    let prev := textInner bg rest
    if bg = "" ∨ t = "" then prev
    else
      let res := checkWCAG t bg
      if ¬ res.AAnormalText then
        (⟨Severity.error, t, bg, res.ratioValue⟩ :: prev.1, prev.2)
      else if ¬ res.AAAnormalText then
        (⟨Severity.warning, t, bg, res.ratioValue⟩ :: prev.1, prev.2)
      else (prev.1, ⟨t, bg, res.ratioValue⟩ :: prev.2)

/-- Outer background loop of the background×text pass. -/
def textOuter (texts : List String) : List String → List Issue × List Combo
  | [] => ([], [])
  | bg :: rest =>
    ((textInner bg texts).1 ++ (textOuter texts rest).1,
      (textInner bg texts).2 ++ (textOuter texts rest).2)

/-- Inner accent loop of `auditAccessibility` for one background. -/
def accentInner (bg : String) : List String → List Issue
  | [] => []
  | a :: rest =>
    if bg = "" ∨ a = "" then accentInner bg rest
    else
      let res := checkWCAG a bg
      if ¬ res.AAuiComponents then
        ⟨Severity.warning, a, bg, res.ratioValue⟩ :: accentInner bg rest
      else accentInner bg rest

/-- Outer background loop of the accent×background pass. -/
def accentOuter (accents : List String) : List String → List Issue
  | [] => []
  | bg :: rest => accentInner bg accents ++ accentOuter accents rest

/-- The audit result. -/
structure AuditResult where
  issues : List Issue
  passing : List Combo

/-- `auditAccessibility`: background×text capped at 3×3, accent×background
capped at 2×2. -/
def auditAccessibility (colors : RefColors) : AuditResult :=
  let backgrounds := colors.backgrounds.map (·.value)
  let textColors := colors.text.map (·.value)
  let accents := colors.accents.map (·.value)
  let tp := textOuter (textColors.take 3) (backgrounds.take 3)
  let i2 := accentOuter (accents.take 2) (backgrounds.take 2)
  ⟨tp.1 ++ i2, tp.2⟩

/-! ### `compareColors` -/

/-- A similar-color entry (the source stores `deltaE.toFixed(2)`; the exact
distance is kept here). -/
structure SimilarEntry where
  project : String
  reference : String
  distance : EReal

/-- Results of `compareColors`; `exact` entries are
`(project, reference)`. -/
structure ColorResults where
  exact : List (String × String)
  similar : List SimilarEntry
  missing : List String
  extra : List String
  score : ℤ

/-- The exact scan of `compareColors`: the first reference equal to the
project value up to lowercasing. The claimed-reference set is not consulted
here. -/
def findExactColor (p : String) : List String → Option String
  | [] => none
  | r :: rs =>
    if jsToLower p.toList = jsToLower r.toList then some r
    else findExactColor p rs

/-- The similarity scan of `compareColors`: the first unclaimed reference
with `ΔE2000 < 5`. -/
def findSimilarColor (p : String) (mr : List String) : List String → Option String
  | [] => none
  | r :: rs =>
    if r ∈ mr then findSimilarColor p mr rs
    else if deltaE2000 p r < (5 : EReal) then some r
    else findSimilarColor p mr rs

/-- The main loop of `compareColors` over project values, carrying the
exact / similar / extra accumulators and the claimed-reference set. -/
def colorLoop (refs : List String) :
    List String → List (String × String) → List SimilarEntry → List String →
    List String →
    List (String × String) × List SimilarEntry × List String × List String
  | [], e, s, x, mr => (e, s, x, mr)
  | p :: ps, e, s, x, mr =>
    match findExactColor p refs with
    | some r => colorLoop refs ps (e ++ [(p, r)]) s x (r :: mr)
    | none =>
      match findSimilarColor p mr refs with
      | some r => colorLoop refs ps e (s ++ [⟨p, r, deltaE2000 p r⟩]) x (r :: mr)
      | none => colorLoop refs ps e s (x ++ [p]) mr

/-- `compareColors`. Project colors are the values of the project color
object; reference colors are the palette plus semantic values,
de-duplicated (`new Set`, first occurrence) with falsy entries dropped. -/
def compareColors (projectColors : List String)
    (referenceColors : RefColors) : ColorResults :=
  let refPalette := referenceColors.palette.map (·.value)
  let refSemantic := referenceColors.backgrounds.map (·.value) ++
    referenceColors.text.map (·.value) ++
    referenceColors.borders.map (·.value) ++
    referenceColors.accents.map (·.value)
  let allRefColors := (dedupFirst (refPalette ++ refSemantic)).filter (fun s => s ≠ "")
  let projectColorValues := projectColors.filter (fun s => s ≠ "")
  let res := colorLoop allRefColors projectColorValues [] [] [] []
  let missing := allRefColors.filter (fun r => r ∉ res.2.2.2)
  let total : ℚ := if allRefColors.length = 0 then 1 else allRefColors.length
  { exact := res.1, similar := res.2.1, missing := missing, extra := res.2.2.1,
    score := jsRound ((((res.1.length : ℚ) + (res.2.1.length : ℚ) * (8 / 10)) / total) * 100) }

end

/-! ## Helper lemmas -/

lemma gammaW_nonneg {c : ℝ} (hc : 0 ≤ c) : 0 ≤ gammaW c := by
  unfold gammaW
  split_ifs with h
  · positivity
  · exact Real.rpow_nonneg (by positivity) _

lemma getLuminance_nonneg (hex : String) : 0 ≤ getLuminance hex := by
  unfold getLuminance
  cases hc : hexToRgb hex with
  | none => simp
  | some c =>
    have h1 : (0:ℝ) ≤ gammaW ((c.r : ℝ) / 255) := gammaW_nonneg (by positivity)
    have h2 : (0:ℝ) ≤ gammaW ((c.g : ℝ) / 255) := gammaW_nonneg (by positivity)
    have h3 : (0:ℝ) ≤ gammaW ((c.b : ℝ) / 255) := gammaW_nonneg (by positivity)
    linarith

lemma jsRound_nonneg {q : ℚ} (h : 0 ≤ q) : 0 ≤ jsRound q := by
  unfold jsRound
  have h2 : (0:ℚ) ≤ q + 1 / 2 := by linarith
  exact Int.le_floor.mpr (by exact_mod_cast h2)

lemma totalPos (n : ℕ) : (0:ℚ) < if n = 0 then 1 else (n : ℚ) := by
  split_ifs with h
  · norm_num
  · exact_mod_cast Nat.pos_of_ne_zero h

lemma score2_nonneg (a b w : ℚ) (n : ℕ) (ha : 0 ≤ a) (hb : 0 ≤ b) (hw : 0 ≤ w) :
    0 ≤ jsRound ((a + b * w) / (if n = 0 then 1 else (n : ℚ)) * 100) := by
  apply jsRound_nonneg
  have ht := totalPos n
  have hnum : 0 ≤ a + b * w := by positivity
  have := div_nonneg hnum ht.le
  linarith

lemma score1_nonneg (a : ℚ) (n : ℕ) (ha : 0 ≤ a) :
    0 ≤ jsRound (a / (if n = 0 then 1 else (n : ℚ)) * 100) := by
  apply jsRound_nonneg
  have ht := totalPos n
  have := div_nonneg ha ht.le
  linarith

lemma findCloseSpacing_not_mem {p r : JsNum} {mr : List JsNum} :
    ∀ {l : List JsNum}, findCloseSpacing p mr l = some r → r ∉ mr := by
  intro l
  induction l with
  | nil => intro h; simp [findCloseSpacing] at h
  | cons a t ih =>
    intro h
    unfold findCloseSpacing at h
    split_ifs at h with h1 h2
    · exact ih h
    · cases h; exact h1
    · exact ih h

lemma spacingLoop_close_nodup (refScale : List JsNum) :
    ∀ (ps : List JsNum) (m : List (JsNum × JsNum)) (c : List (JsNum × JsNum × ℚ))
      (x mr : List JsNum),
      (c.map (fun t => t.2.1)).Nodup →
      (∀ r ∈ c.map (fun t => t.2.1), r ∈ mr) →
      (((spacingLoop refScale ps m c x mr).2.1).map (fun t => t.2.1)).Nodup := by
  intro ps
  induction ps with
  | nil => intro m c x mr hnd _; simpa [spacingLoop] using hnd
  | cons p ps ih =>
    intro m c x mr hnd hsub
    unfold spacingLoop
    cases hfe : findExactSpacing p refScale with
    | some r =>
      exact ih _ c x (r :: mr) hnd
        (fun q hq => List.mem_cons_of_mem _ (hsub q hq))
    | none =>
      cases hfc : findCloseSpacing p mr refScale with
      | some r =>
        apply ih m (c ++ [(p, r, jsAbsDiff p r)]) x (r :: mr)
        · have hrnot : r ∉ mr := findCloseSpacing_not_mem hfc
          have hrc : r ∉ c.map (fun t => t.2.1) := fun hmem => hrnot (hsub r hmem)
          simp only [List.map_append, List.map_cons, List.map_nil]
          exact List.Nodup.append hnd (List.nodup_singleton r)
            (by simpa [List.disjoint_singleton] using hrc)
        · intro q hq
          simp only [List.map_append, List.map_cons, List.map_nil,
            List.mem_append, List.mem_singleton] at hq
          rcases hq with hq | hq
          · exact List.mem_cons_of_mem _ (hsub q hq)
          · rw [hq]; exact List.mem_cons_self _ _
      | none =>
        exact ih m c (x ++ [p]) mr hnd hsub

lemma findSimilarColor_not_mem {p r : String} {mr : List String} :
    ∀ {l : List String}, findSimilarColor p mr l = some r → r ∉ mr := by
  intro l
  induction l with
  | nil => intro h; simp [findSimilarColor] at h
  | cons a t ih =>
    intro h
    unfold findSimilarColor at h
    split_ifs at h with h1 h2
    · exact ih h
    · cases h; exact h1
    · exact ih h

lemma colorLoop_similar_nodup (refs : List String) :
    ∀ (ps : List String) (e : List (String × String)) (s : List SimilarEntry)
      (x mr : List String),
      (s.map SimilarEntry.reference).Nodup →
      (∀ r ∈ s.map SimilarEntry.reference, r ∈ mr) →
      (((colorLoop refs ps e s x mr).2.1).map SimilarEntry.reference).Nodup := by
  intro ps
  induction ps with
  | nil => intro e s x mr hnd _; simpa [colorLoop] using hnd
  | cons p ps ih =>
    intro e s x mr hnd hsub
    unfold colorLoop
    cases hfe : findExactColor p refs with
    | some r =>
      exact ih _ s x (r :: mr) hnd
        (fun q hq => List.mem_cons_of_mem _ (hsub q hq))
    | none =>
      cases hfc : findSimilarColor p mr refs with
      | some r =>
        show (List.map SimilarEntry.reference
            (colorLoop refs ps e (s ++ [(⟨p, r, deltaE2000 p r⟩ : SimilarEntry)]) x
              (r :: mr)).2.1).Nodup
        refine ih e (s ++ [(⟨p, r, deltaE2000 p r⟩ : SimilarEntry)]) x (r :: mr) ?_ ?_
        · have hrnot : r ∉ mr := findSimilarColor_not_mem hfc
          have hrc : r ∉ s.map SimilarEntry.reference := fun hmem => hrnot (hsub r hmem)
          simp only [List.map_append, List.map_cons, List.map_nil]
          exact List.Nodup.append hnd (List.nodup_singleton r)
            (by simpa [List.disjoint_singleton] using hrc)
        · intro q hq
          simp only [List.map_append, List.map_cons, List.map_nil,
            List.mem_append, List.mem_singleton] at hq
          rcases hq with hq | hq
          · exact List.mem_cons_of_mem _ (hsub q hq)
          · rw [hq]; exact List.mem_cons_self _ _
      | none =>
        exact ih e s (x ++ [p]) mr hnd hsub

/-! ## Claims -/

/-- C10: for every pair of inputs, `getContrastRatio` is symmetric and the
result is at least 1, the larger luminance always being in the
numerator. -/
theorem claim_C10 (hex1 hex2 : String) :
    getContrastRatio hex1 hex2 = getContrastRatio hex2 hex1 ∧
      1 ≤ getContrastRatio hex1 hex2 := by
  have h1 := getLuminance_nonneg hex1
  have h2 := getLuminance_nonneg hex2
  constructor
  · simp only [getContrastRatio]
    rw [max_comm, min_comm]
  · simp only [getContrastRatio]
    have hmin : (0:ℝ) ≤ min (getLuminance hex1) (getLuminance hex2) := le_min h1 h2
    have hpos : (0:ℝ) < min (getLuminance hex1) (getLuminance hex2) + 0.05 := by
      norm_num; linarith
    rw [le_div_iff₀ hpos]
    have hmm : min (getLuminance hex1) (getLuminance hex2) ≤
        max (getLuminance hex1) (getLuminance hex2) := min_le_max
    linarith

/-- C1 is false as stated: with project spacing `[3, 5]` and reference scale
`[5]`, the reference value `5` is first claimed by the closeness pass (for
project value 3) and then claimed again by the exact pass (for project
value 5), because the exact scan never consults the claimed set; so a
claimed reference value is *not* never claimed again. -/
theorem claim_C1_counterexample :
    (compareSpacing [.num 3, .num 5] ⟨[.num 5]⟩).close = [(.val 3, .val 5, 2)] ∧
      (compareSpacing [.num 3, .num 5] ⟨[.num 5]⟩).matched = [(.val 5, .val 5)] ∧
      (compareSpacing [.num 3, .num 5] ⟨[.num 5]⟩).missing = [] := by
  refine ⟨?_, ?_, ?_⟩ <;>
    norm_num [compareSpacing, spacingLoop, findExactSpacing, findCloseSpacing,
      jsStrictEq, jsAbsDiffLe2, jsAbsDiff, parseSpacingValue, List.filterMap]

/-- C1 (amended): the matching is a single pass over project values (for
each project value an exact scan over all reference values runs first,
then a similarity scan over unclaimed ones); the similarity/closeness pass
only claims unclaimed reference values — so the reference components of the
similar/close matches are pairwise distinct — but the exact scan ignores
the claimed set, so an already claimed reference value can be claimed again
by a later exact match. -/
theorem claim_C1 (projS : List SpacingVal) (refS : RefSpacing)
    (projC : List String) (refC : RefColors) :
    ((compareSpacing projS refS).close.map (fun t => t.2.1)).Nodup ∧
      ((compareColors projC refC).similar.map SimilarEntry.reference).Nodup := by
  constructor
  · simp only [compareSpacing]
    exact spacingLoop_close_nodup _ _ _ _ _ _ (by simp) (by simp)
  · simp only [compareColors]
    exact colorLoop_similar_nodup _ _ _ _ _ _ (by simp) (by simp)

/-- C2 is false as stated: with project spacing `[4, 5]` and reference scale
`[5]`, the single reference is claimed by both the closeness and the exact
pass, and the score is `round((1 + 0.7) / 1 × 100) = 170 > 100`. -/
theorem claim_C2_counterexample :
    (compareSpacing [.num 4, .num 5] ⟨[.num 5]⟩).score = 170 ∧
      ¬ (compareSpacing [.num 4, .num 5] ⟨[.num 5]⟩).score ≤ 100 := by
  have h : (compareSpacing [.num 4, .num 5] ⟨[.num 5]⟩).score = 170 := by
    norm_num [compareSpacing, spacingLoop, findExactSpacing, findCloseSpacing,
      jsStrictEq, jsAbsDiffLe2, jsAbsDiff, parseSpacingValue, List.filterMap, jsRound]
  exact ⟨h, by rw [h]; norm_num⟩

/-- C2 (amended): in every category the score is an integer that is at
least 0; it is not bounded by 100, because a reference value can be counted
both by an exact and by a similarity/closeness match. -/
theorem claim_C2 (projC : List String) (refC : RefColors)
    (projF : List String) (refT : RefTypography)
    (projS : List SpacingVal) (refS : RefSpacing)
    (projR refR : List RadiusVal) :
    0 ≤ (compareColors projC refC).score ∧
      0 ≤ (compareTypography projF refT).score ∧
      0 ≤ (compareSpacing projS refS).score ∧
      0 ≤ (compareBorderRadius projR refR).score := by
  refine ⟨?_, ?_, ?_, ?_⟩
  · simp only [compareColors]
    exact score2_nonneg _ _ _ _ (by positivity) (by positivity) (by norm_num)
  · simp only [compareTypography]
    exact score1_nonneg _ _ (by positivity)
  · simp only [compareSpacing]
    exact score2_nonneg _ _ _ _ (by positivity) (by positivity) (by norm_num)
  · simp only [compareBorderRadius]
    exact score1_nonneg _ _ (by positivity)

lemma findExactColor_same :
    findExactColor "#000000" ["#000000"] = some "#000000" := by
  unfold findExactColor
  rw [if_pos rfl]

lemma compareColors_dup_black :
    compareColors ["#000000"] ⟨[⟨"#000000"⟩, ⟨"#000000"⟩], [], [], [], []⟩ =
      { exact := [("#000000", "#000000")], similar := [], missing := [],
        extra := [], score := 100 } := by
  have hdedup : dedupFirst ["#000000", "#000000"] = ["#000000"] := by decide
  have hfilter : List.filter (fun s => !decide (s = "")) ["#000000"] = ["#000000"] := by
    decide
  norm_num [compareColors, colorLoop, findExactColor_same, hdedup, hfilter,
    dedupFirst, dedupFirstAux, jsRound]

/-- C3 is false as stated: reference palette `[#000000, #000000]` (two
entries) against project `[#000000]` yields one exact match and *zero*
missing entries, not one, because the reference values are de-duplicated
(`[...new Set(...)]`) before matching. -/
theorem claim_C3_counterexample :
    ¬ ((compareColors ["#000000"] ⟨[⟨"#000000"⟩, ⟨"#000000"⟩], [], [], [], []⟩).exact.length = 1 ∧
       (compareColors ["#000000"] ⟨[⟨"#000000"⟩, ⟨"#000000"⟩], [], [], [], []⟩).missing.length = 1) := by
  rw [compareColors_dup_black]
  simp

/-- C3 (amended): reference palette `[#000000, #000000]` (two entries)
against project `[#000000]` yields exactly one exact match and an empty
missing list (with score 100): duplicate reference values are collapsed by
the `new Set` de-duplication, so the duplicate is neither matched twice nor
reported missing. -/
theorem claim_C3 :
    (compareColors ["#000000"] ⟨[⟨"#000000"⟩, ⟨"#000000"⟩], [], [], [], []⟩).exact.length = 1 ∧
      (compareColors ["#000000"] ⟨[⟨"#000000"⟩, ⟨"#000000"⟩], [], [], [], []⟩).missing = [] ∧
      (compareColors ["#000000"] ⟨[⟨"#000000"⟩, ⟨"#000000"⟩], [], [], [], []⟩).similar = [] ∧
      (compareColors ["#000000"] ⟨[⟨"#000000"⟩, ⟨"#000000"⟩], [], [], [], []⟩).score = 100 := by
  rw [compareColors_dup_black]
  simp

/-! ## Symmetry of the CIEDE2000 distance -/

lemma Gfactor_comm (l1 l2 : LabColor) : Gfactor l2 l1 = Gfactor l1 l2 := by
  unfold Gfactor
  rw [add_comm (chroma l2)]

lemma aAdj1_swap (l1 l2 : LabColor) : aAdj1 l2 l1 = aAdj2 l1 l2 := by
  unfold aAdj1 aAdj2
  rw [Gfactor_comm]

lemma aAdj2_swap (l1 l2 : LabColor) : aAdj2 l2 l1 = aAdj1 l1 l2 := by
  unfold aAdj1 aAdj2
  rw [Gfactor_comm]

lemma C1p_swap (l1 l2 : LabColor) : C1p l2 l1 = C2p l1 l2 := by
  unfold C1p C2p
  rw [aAdj1_swap]

lemma C2p_swap (l1 l2 : LabColor) : C2p l2 l1 = C1p l1 l2 := by
  unfold C1p C2p
  rw [aAdj2_swap]

lemma h1pAdj_swap (l1 l2 : LabColor) : h1pAdj l2 l1 = h2pAdj l1 l2 := by
  unfold h1pAdj h2pAdj
  rw [aAdj1_swap]

lemma h2pAdj_swap (l1 l2 : LabColor) : h2pAdj l2 l1 = h1pAdj l1 l2 := by
  unfold h1pAdj h2pAdj
  rw [aAdj2_swap]

lemma dhp_swap (l1 l2 : LabColor) : dhp l2 l1 = -dhp l1 l2 := by
  unfold dhp
  simp only [C1p_swap l1 l2, C2p_swap l1 l2, h1pAdj_swap l1 l2, h2pAdj_swap l1 l2]
  rw [mul_comm (C2p l1 l2) (C1p l1 l2), abs_sub_comm (h1pAdj l1 l2) (h2pAdj l1 l2)]
  by_cases hz : C1p l1 l2 * C2p l1 l2 = 0
  · rw [if_pos hz, if_pos hz, neg_zero]
  · rw [if_neg hz, if_neg hz]
    by_cases habs : |h2pAdj l1 l2 - h1pAdj l1 l2| ≤ 180
    · rw [if_pos habs, if_pos habs]
      ring
    · rw [if_neg habs, if_neg habs]
      rcases lt_abs.mp (not_le.mp habs) with hgt | hgt
      · rw [if_neg (by linarith), if_pos (by linarith)]
        ring
      · rw [if_pos (by linarith), if_neg (by linarith)]
        ring

lemma meanHp_comm (l1 l2 : LabColor) : meanHp l2 l1 = meanHp l1 l2 := by
  unfold meanHp
  simp only [C1p_swap l1 l2, C2p_swap l1 l2, h1pAdj_swap l1 l2, h2pAdj_swap l1 l2]
  rw [mul_comm (C2p l1 l2) (C1p l1 l2), abs_sub_comm (h2pAdj l1 l2) (h1pAdj l1 l2),
    add_comm (h2pAdj l1 l2) (h1pAdj l1 l2)]

lemma dHp_swap (l1 l2 : LabColor) : dHp l2 l1 = -dHp l1 l2 := by
  unfold dHp
  simp only [C1p_swap l1 l2, C2p_swap l1 l2, dhp_swap l1 l2]
  rw [mul_comm (C2p l1 l2) (C1p l1 l2), neg_mul, neg_div, Real.sin_neg]
  ring

lemma Tterm_comm (l1 l2 : LabColor) : Tterm l2 l1 = Tterm l1 l2 := by
  unfold Tterm
  rw [meanHp_comm]

lemma SL_comm (l1 l2 : LabColor) : SL l2 l1 = SL l1 l2 := by
  unfold SL
  rw [add_comm l2.L]

lemma SC_comm (l1 l2 : LabColor) : SC l2 l1 = SC l1 l2 := by
  unfold SC
  simp only [C1p_swap l1 l2, C2p_swap l1 l2]
  rw [add_comm (C2p l1 l2)]

lemma SH_comm (l1 l2 : LabColor) : SH l2 l1 = SH l1 l2 := by
  unfold SH
  simp only [C1p_swap l1 l2, C2p_swap l1 l2, Tterm_comm l1 l2]
  rw [add_comm (C2p l1 l2)]

lemma RT_comm (l1 l2 : LabColor) : RT l2 l1 = RT l1 l2 := by
  unfold RT
  simp only [C1p_swap l1 l2, C2p_swap l1 l2, meanHp_comm l1 l2]
  rw [add_comm (C2p l1 l2)]

lemma radicand_comm (l1 l2 : LabColor) : radicand l2 l1 = radicand l1 l2 := by
  unfold radicand
  simp only [C1p_swap l1 l2, C2p_swap l1 l2, SL_comm l1 l2, SC_comm l1 l2,
    SH_comm l1 l2, RT_comm l1 l2, dHp_swap l1 l2]
  ring

lemma deltaE2000Lab_comm (l1 l2 : LabColor) :
    deltaE2000Lab l2 l1 = deltaE2000Lab l1 l2 := by
  unfold deltaE2000Lab
  rw [radicand_comm]

/-- C6: for all colors `a` and `b` that both parse to RGB triplets,
`deltaE2000 a b = deltaE2000 b a`. -/
theorem claim_C6 (a b : String) (ha : hexToRgb a ≠ none) (hb : hexToRgb b ≠ none) :
    deltaE2000 a b = deltaE2000 b a := by
  unfold deltaE2000
  cases hca : hexToRgb a with
  | none => exact absurd hca ha
  | some ca =>
    cases hcb : hexToRgb b with
    | none => exact absurd hcb hb
    | some cb =>
      exact congrArg (fun r : ℝ => (r : EReal))
        (deltaE2000Lab_comm (rgbToLab cb) (rgbToLab ca))

/-- Witness for C6 at `#000000` and `#ffffff`. -/
theorem claim_C6_witness :
    hexToRgb "#000000" ≠ none ∧ hexToRgb "#ffffff" ≠ none ∧
      deltaE2000 "#000000" "#ffffff" = deltaE2000 "#ffffff" "#000000" :=
  ⟨by decide, by decide, claim_C6 "#000000" "#ffffff" (by decide) (by decide)⟩

/-! ## Nonnegativity of the CIEDE2000 distance -/

lemma sqrtRatio_le_one {c : ℝ} (hc : 0 ≤ c) :
    Real.sqrt (c ^ 7 / (c ^ 7 + 25 ^ 7)) ≤ 1 := by
  have h1 : c ^ 7 / (c ^ 7 + 25 ^ 7) ≤ 1 := by
    rw [div_le_one (by positivity)]
    nlinarith [pow_nonneg hc 7]
  calc Real.sqrt (c ^ 7 / (c ^ 7 + 25 ^ 7)) ≤ Real.sqrt 1 := Real.sqrt_le_sqrt h1
    _ = 1 := Real.sqrt_one

lemma Gfactor_bounds (l1 l2 : LabColor) :
    0 ≤ Gfactor l1 l2 ∧ Gfactor l1 l2 ≤ 1 / 2 := by
  unfold Gfactor
  have hc : 0 ≤ (chroma l1 + chroma l2) / 2 := by
    have := Real.sqrt_nonneg (l1.a * l1.a + l1.b * l1.b)
    have := Real.sqrt_nonneg (l2.a * l2.a + l2.b * l2.b)
    unfold chroma
    positivity
  have h1 := sqrtRatio_le_one hc
  have h0 := Real.sqrt_nonneg (((chroma l1 + chroma l2) / 2) ^ 7 /
    (((chroma l1 + chroma l2) / 2) ^ 7 + 25 ^ 7))
  constructor <;> nlinarith

lemma SL_ge_one (l1 l2 : LabColor) : 1 ≤ SL l1 l2 := by
  unfold SL
  have h0 : (0:ℝ) ≤ 0.015 * (((l1.L + l2.L) / 2) - 50) ^ 2 := by positivity
  have h1 := Real.sqrt_nonneg (20 + (((l1.L + l2.L) / 2) - 50) ^ 2)
  have := div_nonneg h0 h1
  linarith

lemma SC_ge_one (l1 l2 : LabColor) : 1 ≤ SC l1 l2 := by
  unfold SC
  have h1 := Real.sqrt_nonneg (aAdj1 l1 l2 * aAdj1 l1 l2 + l1.b * l1.b)
  have h2 := Real.sqrt_nonneg (aAdj2 l1 l2 * aAdj2 l1 l2 + l2.b * l2.b)
  unfold C1p C2p
  linarith

lemma RT_abs_le_two (l1 l2 : LabColor) : |RT l1 l2| ≤ 2 := by
  unfold RT
  have hcp : 0 ≤ (C1p l1 l2 + C2p l1 l2) / 2 := by
    have h1 := Real.sqrt_nonneg (aAdj1 l1 l2 * aAdj1 l1 l2 + l1.b * l1.b)
    have h2 := Real.sqrt_nonneg (aAdj2 l1 l2 * aAdj2 l1 l2 + l2.b * l2.b)
    unfold C1p C2p
    linarith
  have hrc := sqrtRatio_le_one hcp
  have hrc0 := Real.sqrt_nonneg ((((C1p l1 l2 + C2p l1 l2) / 2) ^ 7) /
    ((((C1p l1 l2 + C2p l1 l2) / 2) ^ 7) + 25 ^ 7))
  have hs1 := Real.sin_le_one (2 * (30 * Real.exp (-(((meanHp l1 l2 - 275) / 25) ^ 2))) *
    Real.pi / 180)
  have hs2 := Real.neg_one_le_sin (2 * (30 * Real.exp (-(((meanHp l1 l2 - 275) / 25) ^ 2))) *
    Real.pi / 180)
  rw [abs_le]
  constructor <;> nlinarith

lemma radicand_nonneg (l1 l2 : LabColor) : 0 ≤ radicand l1 l2 := by
  unfold radicand
  set A := (l2.L - l1.L) / (1 * SL l1 l2) with hA
  set B := (C2p l1 l2 - C1p l1 l2) / (1 * SC l1 l2) with hB
  set C := dHp l1 l2 / (1 * SH l1 l2) with hC
  have hRT := abs_le.mp (RT_abs_le_two l1 l2)
  rcases le_or_lt 0 (B * C) with hbc | hbc
  · nlinarith [mul_nonneg (by linarith : (0:ℝ) ≤ RT l1 l2 + 2) hbc,
      sq_nonneg (B - C), sq_nonneg A]
  · nlinarith [mul_nonneg (by linarith : (0:ℝ) ≤ 2 - RT l1 l2) (by linarith : (0:ℝ) ≤ -(B * C)),
      sq_nonneg (B + C), sq_nonneg A]

/-- C8: the value of `deltaE2000` is always at least 0 — a nonnegative real
when both inputs parse, `+∞` (`⊤`) otherwise — and the expression under the
final square root is never negative despite the `RT` cross term. -/
theorem claim_C8 (a b : String) (l1 l2 : LabColor) :
    0 ≤ deltaE2000 a b ∧ 0 ≤ radicand l1 l2 ∧ 0 ≤ deltaE2000Lab l1 l2 := by
  refine ⟨?_, radicand_nonneg l1 l2, Real.sqrt_nonneg _⟩
  unfold deltaE2000
  rcases hexToRgb a with _ | ca
  · exact le_top
  rcases hexToRgb b with _ | cb
  · exact le_top
  exact EReal.coe_nonneg.mpr (Real.sqrt_nonneg _)

/-! ## Concrete evaluation: `#010101` against the reference
`[#000000, #ffffff]` (claim C4) -/

lemma labF_small {v : ℝ} (h : ¬ v > 0.008856) : labF v = (903.3 * v + 16) / 116 := by
  unfold labF
  rw [if_neg h]

lemma gammaExpand_small {c : ℝ} (h : ¬ c > 0.04045) : gammaExpand c = c / 12.92 := by
  unfold gammaExpand
  rw [if_neg h]

lemma rgbToLab_black : rgbToLab ⟨0, 0, 0⟩ = ⟨0, 0, 0⟩ := by
  unfold rgbToLab
  norm_num [gammaExpand_small, labF_small]

lemma rgbToLab_one_bounds :
    0 ≤ (rgbToLab ⟨1, 1, 1⟩).L ∧ (rgbToLab ⟨1, 1, 1⟩).L ≤ 0.28 ∧
      |(rgbToLab ⟨1, 1, 1⟩).a| ≤ 0.001 ∧ |(rgbToLab ⟨1, 1, 1⟩).b| ≤ 0.001 := by
  refine ⟨?_, ?_, abs_le.mpr ⟨?_, ?_⟩, abs_le.mpr ⟨?_, ?_⟩⟩ <;>
  · unfold rgbToLab
    norm_num [gammaExpand_small, labF_small]

lemma C2p_black_right (l1 : LabColor) : C2p l1 ⟨0, 0, 0⟩ = 0 := by
  unfold C2p aAdj2
  norm_num

lemma dhp_black_right (l1 : LabColor) : dhp l1 ⟨0, 0, 0⟩ = 0 := by
  unfold dhp
  rw [C2p_black_right, mul_zero, if_pos rfl]

lemma dHp_black_right (l1 : LabColor) : dHp l1 ⟨0, 0, 0⟩ = 0 := by
  unfold dHp
  rw [C2p_black_right, mul_zero, Real.sqrt_zero]
  ring

lemma C1p_le_of_small {l1 l2 : LabColor} (ha : |l1.a| ≤ 0.001) (hb : |l1.b| ≤ 0.001) :
    C1p l1 l2 ≤ 0.01 := by
  unfold C1p aAdj1
  have hG := Gfactor_bounds l1 l2
  have hGpos : (0:ℝ) < 1 + Gfactor l1 l2 := by linarith
  have habs : |l1.a * (1 + Gfactor l1 l2)| ≤ 0.0015 := by
    rw [abs_mul, abs_of_pos hGpos]
    calc |l1.a| * (1 + Gfactor l1 l2) ≤ 0.001 * 1.5 :=
          mul_le_mul ha (by linarith) (by linarith) (by norm_num)
      _ = 0.0015 := by norm_num
  have h1 : l1.a * (1 + Gfactor l1 l2) * (l1.a * (1 + Gfactor l1 l2)) ≤ 0.0015 * 0.0015 := by
    rw [← abs_mul_abs_self (l1.a * (1 + Gfactor l1 l2))]
    exact mul_self_le_mul_self (abs_nonneg _) habs
  have h2 : l1.b * l1.b ≤ 0.001 * 0.001 := by
    rw [← abs_mul_abs_self l1.b]
    exact mul_self_le_mul_self (abs_nonneg _) hb
  calc Real.sqrt (l1.a * (1 + Gfactor l1 l2) * (l1.a * (1 + Gfactor l1 l2)) + l1.b * l1.b)
      ≤ Real.sqrt 0.0001 := Real.sqrt_le_sqrt (by nlinarith)
    _ = 0.01 := by
        rw [show (0.0001:ℝ) = 0.01 ^ 2 by norm_num]
        exact Real.sqrt_sq (by norm_num)

lemma radicand_black_lt (l1 : LabColor) (hL0 : 0 ≤ l1.L) (hL : l1.L ≤ 0.28)
    (ha : |l1.a| ≤ 0.001) (hb : |l1.b| ≤ 0.001) :
    radicand l1 ⟨0, 0, 0⟩ < 25 := by
  unfold radicand
  rw [dHp_black_right, C2p_black_right]
  have hSL := SL_ge_one l1 ⟨0, 0, 0⟩
  have hSC := SC_ge_one l1 ⟨0, 0, 0⟩
  have hC1 : C1p l1 ⟨0, 0, 0⟩ ≤ 0.01 := C1p_le_of_small ha hb
  have hC1nn : 0 ≤ C1p l1 ⟨0, 0, 0⟩ := Real.sqrt_nonneg _
  have hLs : l1.L / SL l1 ⟨0, 0, 0⟩ ≤ l1.L := div_le_self hL0 hSL
  have hLs0 : 0 ≤ l1.L / SL l1 ⟨0, 0, 0⟩ := div_nonneg hL0 (by linarith)
  have hCs : C1p l1 ⟨0, 0, 0⟩ / SC l1 ⟨0, 0, 0⟩ ≤ C1p l1 ⟨0, 0, 0⟩ :=
    div_le_self hC1nn hSC
  have hCs0 : 0 ≤ C1p l1 ⟨0, 0, 0⟩ / SC l1 ⟨0, 0, 0⟩ := div_nonneg hC1nn (by linarith)
  have hLdiv : ((0:ℝ) - l1.L) / (1 * SL l1 ⟨0, 0, 0⟩) = -(l1.L / SL l1 ⟨0, 0, 0⟩) := by
    ring
  have e1 : ((0:ℝ) - C1p l1 ⟨0, 0, 0⟩) / (1 * SC l1 ⟨0, 0, 0⟩) =
      -(C1p l1 ⟨0, 0, 0⟩ / SC l1 ⟨0, 0, 0⟩) := by ring
  rw [hLdiv, e1]
  have hsq1 : (l1.L / SL l1 ⟨0, 0, 0⟩) ^ 2 ≤ 0.0784 := by nlinarith
  have hsq2 : (C1p l1 ⟨0, 0, 0⟩ / SC l1 ⟨0, 0, 0⟩) ^ 2 ≤ 0.0001 := by nlinarith
  simp only [zero_div, mul_zero, add_zero, neg_sq]
  nlinarith

lemma deltaE2000Lab_black_lt (l1 : LabColor) (hL0 : 0 ≤ l1.L) (hL : l1.L ≤ 0.28)
    (ha : |l1.a| ≤ 0.001) (hb : |l1.b| ≤ 0.001) :
    deltaE2000Lab l1 ⟨0, 0, 0⟩ < 5 := by
  unfold deltaE2000Lab
  have h := radicand_black_lt l1 hL0 hL ha hb
  calc Real.sqrt (radicand l1 ⟨0, 0, 0⟩) < Real.sqrt 25 :=
        Real.sqrt_lt_sqrt (radicand_nonneg _ _) h
    _ = 5 := by
        rw [show (25:ℝ) = 5 ^ 2 by norm_num]
        exact Real.sqrt_sq (by norm_num)

lemma deltaE_010101_000000_lt :
    deltaE2000 "#010101" "#000000" < (5 : EReal) := by
  have h1 : hexToRgb "#010101" = some ⟨1, 1, 1⟩ := by decide
  have h2 : hexToRgb "#000000" = some ⟨0, 0, 0⟩ := by decide
  unfold deltaE2000
  rw [h1, h2]
  show ((deltaE2000Lab (rgbToLab ⟨1, 1, 1⟩) (rgbToLab ⟨0, 0, 0⟩) : ℝ) : EReal) < (5 : EReal)
  have hlt : deltaE2000Lab (rgbToLab ⟨1, 1, 1⟩) (rgbToLab ⟨0, 0, 0⟩) < 5 := by
    rw [rgbToLab_black]
    exact deltaE2000Lab_black_lt _ rgbToLab_one_bounds.1 rgbToLab_one_bounds.2.1
      rgbToLab_one_bounds.2.2.1 rgbToLab_one_bounds.2.2.2
  exact EReal.coe_lt_coe_iff.mpr hlt

lemma deltaE_000000_010101_lt :
    deltaE2000 "#000000" "#010101" < (5 : EReal) := by
  have h1 : hexToRgb "#010101" = some ⟨1, 1, 1⟩ := by decide
  have h2 : hexToRgb "#000000" = some ⟨0, 0, 0⟩ := by decide
  unfold deltaE2000
  rw [h1, h2]
  show ((deltaE2000Lab (rgbToLab ⟨0, 0, 0⟩) (rgbToLab ⟨1, 1, 1⟩) : ℝ) : EReal) < (5 : EReal)
  have hlt : deltaE2000Lab (rgbToLab ⟨1, 1, 1⟩) (rgbToLab ⟨0, 0, 0⟩) < 5 := by
    rw [rgbToLab_black]
    exact deltaE2000Lab_black_lt _ rgbToLab_one_bounds.1 rgbToLab_one_bounds.2.1
      rgbToLab_one_bounds.2.2.1 rgbToLab_one_bounds.2.2.2
  rw [deltaE2000Lab_comm]
  exact EReal.coe_lt_coe_iff.mpr hlt

lemma findSimilarColor_C4 :
    findSimilarColor "#010101" [] ["#000000", "#ffffff"] = some "#000000" := by
  unfold findSimilarColor
  rw [if_neg (by simp), if_pos deltaE_010101_000000_lt]

lemma compareColors_C4_eval :
    compareColors ["#010101"] ⟨[⟨"#000000"⟩, ⟨"#ffffff"⟩], [], [], [], []⟩ =
      { exact := [],
        similar := [⟨"#010101", "#000000", deltaE2000 "#010101" "#000000"⟩],
        missing := ["#ffffff"], extra := [], score := 40 } := by
  have hfe : findExactColor "#010101" ["#000000", "#ffffff"] = none := by
    simp only [findExactColor]
    rw [if_neg (by decide), if_neg (by decide)]
  have hdedup : dedupFirst ["#000000", "#ffffff"] = ["#000000", "#ffffff"] := by decide
  have hfilterRef : List.filter (fun s => !decide (s = "")) ["#000000", "#ffffff"] =
      ["#000000", "#ffffff"] := by decide
  have hfilterProj : List.filter (fun s => !decide (s = "")) ["#010101"] =
      ["#010101"] := by decide
  have hmiss : List.filter (fun r => !decide (r ∈ ["#000000"])) ["#000000", "#ffffff"] =
      ["#ffffff"] := by decide
  norm_num [compareColors, colorLoop, hfilterRef, hfilterProj, hfe,
    findSimilarColor_C4, hdedup, hmiss, jsRound]
  decide

/-- C4: comparing reference palette `[#000000, #ffffff]` against project
`[#010101]` yields no exact match; `deltaE2000(#000000, #010101) < 5`, so
`#010101` is paired with `#000000` as the single similar match; `#ffffff`
is reported missing; and the score equals `round(100 × (0 + 0.8) / 2) = 40`. -/
theorem claim_C4 :
    deltaE2000 "#000000" "#010101" < (5 : EReal) ∧
      (compareColors ["#010101"] ⟨[⟨"#000000"⟩, ⟨"#ffffff"⟩], [], [], [], []⟩).exact = [] ∧
      ((compareColors ["#010101"] ⟨[⟨"#000000"⟩, ⟨"#ffffff"⟩], [], [], [], []⟩).similar.map
        (fun e => (e.project, e.reference))) = [("#010101", "#000000")] ∧
      (compareColors ["#010101"] ⟨[⟨"#000000"⟩, ⟨"#ffffff"⟩], [], [], [], []⟩).missing =
        ["#ffffff"] ∧
      (compareColors ["#010101"] ⟨[⟨"#000000"⟩, ⟨"#ffffff"⟩], [], [], [], []⟩).extra = [] ∧
      (compareColors ["#010101"] ⟨[⟨"#000000"⟩, ⟨"#ffffff"⟩], [], [], [], []⟩).score = 40 := by
  rw [compareColors_C4_eval]
  exact ⟨deltaE_000000_010101_lt, rfl, rfl, rfl, rfl, rfl⟩

/-! ## WCAG audit at `#767676` on `#ffffff` (claim C9) -/

lemma gammaW_one : gammaW (1 : ℝ) = 1 := by
  unfold gammaW
  rw [if_neg (by norm_num), show ((1:ℝ) + 0.055) / 1.055 = 1 by norm_num]
  exact Real.one_rpow _

lemma getLuminance_white : getLuminance "#ffffff" = 1 := by
  have h : hexToRgb "#ffffff" = some ⟨255, 255, 255⟩ := by decide
  unfold getLuminance
  rw [h]
  norm_num [gammaW_one]

lemma getLuminance_gray_bounds :
    0.1808 < getLuminance "#767676" ∧ getLuminance "#767676" < 0.1815 := by
  have h : hexToRgb "#767676" = some ⟨118, 118, 118⟩ := by decide
  have hgw : gammaW ((118:ℝ) / 255) = (((118:ℝ) / 255 + 0.055) / 1.055) ^ (2.4:ℝ) := by
    unfold gammaW
    rw [if_neg (by norm_num)]
  have hx : (0:ℝ) < ((118:ℝ) / 255 + 0.055) / 1.055 := by norm_num
  have hg0 : (0:ℝ) ≤ (((118:ℝ) / 255 + 0.055) / 1.055) ^ (2.4:ℝ) :=
    Real.rpow_nonneg hx.le _
  have hpow : ((((118:ℝ) / 255 + 0.055) / 1.055) ^ (2.4:ℝ)) ^ (5:ℕ) =
      (((118:ℝ) / 255 + 0.055) / 1.055) ^ (12:ℕ) := by
    rw [← Real.rpow_natCast ((((118:ℝ) / 255 + 0.055) / 1.055) ^ (2.4:ℝ)) 5,
      ← Real.rpow_mul hx.le, show ((2.4:ℝ) * ((5:ℕ):ℝ)) = ((12:ℕ):ℝ) by norm_num,
      Real.rpow_natCast]
  have hub : (((118:ℝ) / 255 + 0.055) / 1.055) ^ (12:ℕ) < (0.1815:ℝ) ^ (5:ℕ) := by
    norm_num
  have hlb : (0.1808:ℝ) ^ (5:ℕ) < (((118:ℝ) / 255 + 0.055) / 1.055) ^ (12:ℕ) := by
    norm_num
  have hgub : (((118:ℝ) / 255 + 0.055) / 1.055) ^ (2.4:ℝ) < 0.1815 :=
    lt_of_pow_lt_pow_left₀ 5 (by norm_num) (by rw [hpow]; exact hub)
  have hglb : (0.1808:ℝ) < (((118:ℝ) / 255 + 0.055) / 1.055) ^ (2.4:ℝ) :=
    lt_of_pow_lt_pow_left₀ 5 hg0 (by rw [hpow]; exact hlb)
  unfold getLuminance
  simp only [h, Nat.cast_ofNat]
  constructor <;>
  · rw [hgw]
    linarith

lemma contrast_gray_white_eq :
    getContrastRatio "#767676" "#ffffff" = 1.05 / (getLuminance "#767676" + 0.05) := by
  simp only [getContrastRatio]
  have hlt : getLuminance "#767676" < 1 :=
    lt_trans getLuminance_gray_bounds.2 (by norm_num)
  rw [getLuminance_white, max_eq_right hlt.le, min_eq_left hlt.le]
  norm_num

lemma contrast_gray_white_bounds :
    4.5 ≤ getContrastRatio "#767676" "#ffffff" ∧
      getContrastRatio "#767676" "#ffffff" < 7 ∧
      4.53 < getContrastRatio "#767676" "#ffffff" ∧
      getContrastRatio "#767676" "#ffffff" < 4.56 := by
  rw [contrast_gray_white_eq]
  obtain ⟨hl, hu⟩ := getLuminance_gray_bounds
  have hpos : (0:ℝ) < getLuminance "#767676" + 0.05 := by linarith
  refine ⟨?_, ?_, ?_, ?_⟩
  · rw [le_div_iff₀ hpos]
    linarith
  · rw [div_lt_iff₀ hpos]
    linarith
  · rw [lt_div_iff₀ hpos]
    linarith
  · rw [div_lt_iff₀ hpos]
    linarith

lemma audit_C9_eval :
    (auditAccessibility ⟨[], [⟨"#ffffff"⟩], [⟨"#767676"⟩], [], []⟩).issues.map
        (fun i => (i.severity, i.foreground, i.background)) =
        [(Severity.warning, "#767676", "#ffffff")] ∧
      (auditAccessibility ⟨[], [⟨"#ffffff"⟩], [⟨"#767676"⟩], [], []⟩).passing = [] := by
  have hAA : getContrastRatio "#767676" "#ffffff" ≥ 4.5 :=
    contrast_gray_white_bounds.1
  have hAAA : ¬ getContrastRatio "#767676" "#ffffff" ≥ 7 :=
    not_le.mpr contrast_gray_white_bounds.2.1
  constructor <;>
  · simp [auditAccessibility, textOuter, textInner, accentOuter, accentInner,
      checkWCAG, hAA, hAAA]

/-- C9: foreground `#767676` on background `#ffffff` yields a contrast
ratio of approximately 4.54 (between 4.53 and 4.56), which passes AA-normal
(`≥ 4.5`) and fails AAA-normal (`< 7`), so the audit buckets the pair as a
single warning-severity issue, not an error, with nothing in `passing`. -/
theorem claim_C9 :
    4.5 ≤ getContrastRatio "#767676" "#ffffff" ∧
      getContrastRatio "#767676" "#ffffff" < 7 ∧
      4.53 < getContrastRatio "#767676" "#ffffff" ∧
      getContrastRatio "#767676" "#ffffff" < 4.56 ∧
      (auditAccessibility ⟨[], [⟨"#ffffff"⟩], [⟨"#767676"⟩], [], []⟩).issues.map
        (fun i => (i.severity, i.foreground, i.background)) =
        [(Severity.warning, "#767676", "#ffffff")] ∧
      (auditAccessibility ⟨[], [⟨"#ffffff"⟩], [⟨"#767676"⟩], [], []⟩).passing = [] := by
  obtain ⟨h1, h2, h3, h4⟩ := contrast_gray_white_bounds
  obtain ⟨h5, h6⟩ := audit_C9_eval
  exact ⟨h1, h2, h3, h4, h5, h6⟩

/-! ## Reflexivity of `deltaE2000`, and the `labF` branch overlap -/

lemma dhp_self (l : LabColor) : dhp l l = 0 := by
  have hh : h2pAdj l l = h1pAdj l l := rfl
  unfold dhp
  rw [hh, sub_self]
  simp

lemma radicand_self (l : LabColor) : radicand l l = 0 := by
  have hC : C2p l l = C1p l l := rfl
  unfold radicand dHp
  rw [dhp_self, hC, sub_self]
  simp

/-- For every color string that parses, `deltaE2000 c c = 0`: the reflexive
half of the zero-iff-equal property. -/
lemma deltaE2000_refl (c : String) (hc : hexToRgb c ≠ none) :
    deltaE2000 c c = 0 := by
  unfold deltaE2000
  cases h : hexToRgb c with
  | none => exact absurd h hc
  | some rgb =>
    show ((deltaE2000Lab (rgbToLab rgb) (rgbToLab rgb) : ℝ) : EReal) = 0
    rw [show deltaE2000Lab (rgbToLab rgb) (rgbToLab rgb) = 0 from by
      unfold deltaE2000Lab
      rw [radicand_self, Real.sqrt_zero]]
    exact EReal.coe_zero

/-- The truncated `epsilon = 0.008856` (slightly less than `(6/29)³`) makes
`labF` non-monotone across its branch boundary: the linear branch at
`0.008856` exceeds the cube-root branch just above it, so distinct XYZ
coordinates on opposite sides of the boundary can share one `labF` value.
This blocks injectivity of the RGB→Lab conversion, on which the only-if
half of the zero-iff-equal property of `deltaE2000` would rest. -/
lemma labF_branch_overlap : labF 0.008856005 < labF 0.008856 := by
  have h1 : labF (0.008856 : ℝ) = (903.3 * 0.008856 + 16) / 116 :=
    labF_small (by norm_num)
  have h2 : labF (0.008856005 : ℝ) = (0.008856005 : ℝ) ^ ((1:ℝ) / 3) := by
    unfold labF
    rw [if_pos (by norm_num)]
  rw [h1, h2]
  have hpow : ((0.008856005 : ℝ) ^ ((1:ℝ) / 3)) ^ (3:ℕ) = 0.008856005 := by
    rw [← Real.rpow_natCast ((0.008856005 : ℝ) ^ ((1:ℝ) / 3)) 3,
      ← Real.rpow_mul (by norm_num), show ((1:ℝ) / 3) * ((3:ℕ):ℝ) = 1 by norm_num,
      Real.rpow_one]
  refine lt_of_pow_lt_pow_left₀ 3 (by norm_num) ?_
  rw [hpow]
  norm_num

/-! ## `deltaE2000` is zero exactly on equal Lab coordinates -/

lemma Cp_mean_nonneg (l1 l2 : LabColor) : 0 ≤ (C1p l1 l2 + C2p l1 l2) / 2 := by
  have h1 := Real.sqrt_nonneg (aAdj1 l1 l2 * aAdj1 l1 l2 + l1.b * l1.b)
  have h2 := Real.sqrt_nonneg (aAdj2 l1 l2 * aAdj2 l1 l2 + l2.b * l2.b)
  unfold C1p C2p
  linarith

lemma Tterm_nonneg (l1 l2 : LabColor) : 0 ≤ Tterm l1 l2 := by
  unfold Tterm
  have c1a := Real.neg_one_le_cos ((meanHp l1 l2 - 30) * Real.pi / 180)
  have c1b := Real.cos_le_one ((meanHp l1 l2 - 30) * Real.pi / 180)
  have c2a := Real.neg_one_le_cos (2 * meanHp l1 l2 * Real.pi / 180)
  have c2b := Real.cos_le_one (2 * meanHp l1 l2 * Real.pi / 180)
  have c3a := Real.neg_one_le_cos ((3 * meanHp l1 l2 + 6) * Real.pi / 180)
  have c3b := Real.cos_le_one ((3 * meanHp l1 l2 + 6) * Real.pi / 180)
  have c4a := Real.neg_one_le_cos ((4 * meanHp l1 l2 - 63) * Real.pi / 180)
  have c4b := Real.cos_le_one ((4 * meanHp l1 l2 - 63) * Real.pi / 180)
  linarith

lemma SH_ge_one (l1 l2 : LabColor) : 1 ≤ SH l1 l2 := by
  unfold SH
  have h1 := Cp_mean_nonneg l1 l2
  have h2 := Tterm_nonneg l1 l2
  nlinarith

lemma RT_abs_lt_two (l1 l2 : LabColor) : |RT l1 l2| < 2 := by
  unfold RT
  have hCp := Cp_mean_nonneg l1 l2
  have ht : ((C1p l1 l2 + C2p l1 l2) / 2) ^ 7 /
      (((C1p l1 l2 + C2p l1 l2) / 2) ^ 7 + 25 ^ 7) < 1 := by
    rw [div_lt_one (by positivity)]
    nlinarith [pow_nonneg hCp 7]
  have hs0 := Real.sqrt_nonneg (((C1p l1 l2 + C2p l1 l2) / 2) ^ 7 /
    (((C1p l1 l2 + C2p l1 l2) / 2) ^ 7 + 25 ^ 7))
  have hs : Real.sqrt (((C1p l1 l2 + C2p l1 l2) / 2) ^ 7 /
      (((C1p l1 l2 + C2p l1 l2) / 2) ^ 7 + 25 ^ 7)) < 1 := by
    rw [show (1:ℝ) = Real.sqrt 1 from (Real.sqrt_one).symm]
    exact Real.sqrt_lt_sqrt (by positivity) ht
  set θ := 2 * (30 * Real.exp (-(((meanHp l1 l2 - 275) / 25) ^ 2))) * Real.pi / 180
  have hsin1 := Real.sin_le_one θ
  have hsin2 := Real.neg_one_le_sin θ
  have habs : |(-Real.sin θ) *
      (2 * Real.sqrt (((C1p l1 l2 + C2p l1 l2) / 2) ^ 7 /
        (((C1p l1 l2 + C2p l1 l2) / 2) ^ 7 + 25 ^ 7)))| ≤
      2 * Real.sqrt (((C1p l1 l2 + C2p l1 l2) / 2) ^ 7 /
        (((C1p l1 l2 + C2p l1 l2) / 2) ^ 7 + 25 ^ 7)) := by
    rw [abs_mul, abs_neg,
      abs_of_nonneg (show (0:ℝ) ≤ 2 * Real.sqrt (((C1p l1 l2 + C2p l1 l2) / 2) ^ 7 /
        (((C1p l1 l2 + C2p l1 l2) / 2) ^ 7 + 25 ^ 7)) by positivity)]
    have hsabs : |Real.sin θ| ≤ 1 := abs_le.mpr ⟨by linarith, by linarith⟩
    nlinarith [abs_nonneg (Real.sin θ)]
  calc |(-Real.sin θ) * (2 * Real.sqrt (((C1p l1 l2 + C2p l1 l2) / 2) ^ 7 /
        (((C1p l1 l2 + C2p l1 l2) / 2) ^ 7 + 25 ^ 7)))| ≤
      2 * Real.sqrt (((C1p l1 l2 + C2p l1 l2) / 2) ^ 7 /
        (((C1p l1 l2 + C2p l1 l2) / 2) ^ 7 + 25 ^ 7)) := habs
    _ < 2 := by linarith

lemma radicand_eq_zero_parts {l1 l2 : LabColor} (h : radicand l1 l2 = 0) :
    l1.L = l2.L ∧ C1p l1 l2 = C2p l1 l2 ∧ dHp l1 l2 = 0 := by
  have hSL := SL_ge_one l1 l2
  have hSC := SC_ge_one l1 l2
  have hSH := SH_ge_one l1 l2
  have hRT := RT_abs_lt_two l1 l2
  have hRTa := abs_nonneg (RT l1 l2)
  unfold radicand at h
  set A := (l2.L - l1.L) / (1 * SL l1 l2) with hA
  set B := (C2p l1 l2 - C1p l1 l2) / (1 * SC l1 l2) with hB
  set C := dHp l1 l2 / (1 * SH l1 l2) with hC
  have hcross : -(|RT l1 l2| * |B| * |C|) ≤ RT l1 l2 * B * C := by
    have e1 : |RT l1 l2 * B * C| = |RT l1 l2| * |B| * |C| := by
      rw [abs_mul, abs_mul]
    have := neg_abs_le (RT l1 l2 * B * C)
    linarith [e1 ▸ this]
  have key : A ^ 2 + (|B| - |C|) ^ 2 + (2 - |RT l1 l2|) * (|B| * |C|) ≤ 0 := by
    nlinarith [sq_abs B, sq_abs C]
  have hBC0 : |B| * |C| = 0 := by
    nlinarith [sq_nonneg A, sq_nonneg (|B| - |C|),
      mul_nonneg (abs_nonneg B) (abs_nonneg C)]
  have hBeqC : |B| = |C| := by
    nlinarith [sq_nonneg A, sq_nonneg (|B| - |C|),
      mul_nonneg (abs_nonneg B) (abs_nonneg C)]
  have hB0 : B = 0 := by
    rcases mul_eq_zero.mp hBC0 with h0 | h0
    · exact abs_eq_zero.mp h0
    · exact abs_eq_zero.mp (hBeqC.trans h0)
  have hC0 : C = 0 := by
    rcases mul_eq_zero.mp hBC0 with h0 | h0
    · exact abs_eq_zero.mp (hBeqC.symm.trans h0)
    · exact abs_eq_zero.mp h0
  have hA0 : A = 0 := by
    have : A ^ 2 ≤ 0 := by
      nlinarith [sq_nonneg (|B| - |C|), mul_nonneg (abs_nonneg B) (abs_nonneg C)]
    exact sq_eq_zero_iff.mp (le_antisymm this (sq_nonneg A))
  have hSLne : (1 : ℝ) * SL l1 l2 ≠ 0 := by nlinarith
  have hSCne : (1 : ℝ) * SC l1 l2 ≠ 0 := by nlinarith
  have hSHne : (1 : ℝ) * SH l1 l2 ≠ 0 := by nlinarith
  refine ⟨?_, ?_, ?_⟩
  · have := (div_eq_zero_iff.mp (hA ▸ hA0)).resolve_right hSLne
    linarith
  · have := (div_eq_zero_iff.mp (hB ▸ hB0)).resolve_right hSCne
    linarith
  · exact (div_eq_zero_iff.mp (hC ▸ hC0)).resolve_right hSHne

lemma atan2deg_mem (y x : ℝ) :
    -180 < atan2 y x * 180 / Real.pi ∧ atan2 y x * 180 / Real.pi ≤ 180 := by
  have h1 := Complex.arg_le_pi (⟨x, y⟩ : ℂ)
  have h2 := Complex.neg_pi_lt_arg (⟨x, y⟩ : ℂ)
  have hpi := Real.pi_pos
  unfold atan2
  constructor
  · rw [lt_div_iff₀ hpi]
    nlinarith
  · rw [div_le_iff₀ hpi]
    nlinarith

lemma degAdj_inj {g h : ℝ} (hg1 : -180 < g) (hg2 : g ≤ 180) (hh1 : -180 < h)
    (hh2 : h ≤ 180)
    (he : (if g < 0 then g + 360 else g) = (if h < 0 then h + 360 else h)) :
    g = h := by
  split_ifs at he <;> linarith

lemma h1pAdj_mem (l1 l2 : LabColor) :
    0 ≤ h1pAdj l1 l2 ∧ h1pAdj l1 l2 < 360 := by
  obtain ⟨h1, h2⟩ := atan2deg_mem l1.b (aAdj1 l1 l2)
  simp only [h1pAdj]
  split_ifs with hneg <;> constructor <;> linarith

lemma h2pAdj_mem (l1 l2 : LabColor) :
    0 ≤ h2pAdj l1 l2 ∧ h2pAdj l1 l2 < 360 := by
  obtain ⟨h1, h2⟩ := atan2deg_mem l2.b (aAdj2 l1 l2)
  simp only [h2pAdj]
  split_ifs with hneg <;> constructor <;> linarith

lemma dhp_bounds (l1 l2 : LabColor) :
    (-180 ≤ dhp l1 l2 ∧ dhp l1 l2 ≤ 180) ∧
      (dhp l1 l2 = 0 → C1p l1 l2 * C2p l1 l2 ≠ 0 →
        h1pAdj l1 l2 = h2pAdj l1 l2) := by
  obtain ⟨ha1, ha2⟩ := h1pAdj_mem l1 l2
  obtain ⟨hb1, hb2⟩ := h2pAdj_mem l1 l2
  unfold dhp
  split_ifs with hz habs hgt
  · exact ⟨⟨by norm_num, by norm_num⟩, fun _ hne => absurd hz hne⟩
  · obtain ⟨hl, hr⟩ := abs_le.mp habs
    exact ⟨⟨by linarith, by linarith⟩, fun h0 _ => by linarith⟩
  · refine ⟨⟨by linarith, by linarith⟩, fun h0 _ => by linarith⟩
  · push_neg at habs hgt
    rcases lt_abs.mp (not_le.mp (by simpa using habs)) with hgt2 | hgt2
    · exact absurd hgt2 (not_lt.mpr (by simpa using hgt))
    · refine ⟨⟨by linarith, by linarith⟩, fun h0 _ => by linarith⟩

lemma hue_eq_of {l1 l2 : LabColor} (hC : C1p l1 l2 = C2p l1 l2)
    (hH : dHp l1 l2 = 0) : aAdj1 l1 l2 = aAdj2 l1 l2 ∧ l1.b = l2.b := by
  rcases eq_or_ne (C1p l1 l2 * C2p l1 l2) 0 with hz | hz
  · have hC10 : C1p l1 l2 = 0 := by
      rcases mul_eq_zero.mp hz with h0 | h0
      · exact h0
      · exact hC.trans h0
    have hC20 : C2p l1 l2 = 0 := hC ▸ hC10
    have h1 : aAdj1 l1 l2 * aAdj1 l1 l2 + l1.b * l1.b = 0 := by
      have hle := Real.sqrt_eq_zero'.mp hC10
      nlinarith [mul_self_nonneg (aAdj1 l1 l2), mul_self_nonneg l1.b]
    have h2 : aAdj2 l1 l2 * aAdj2 l1 l2 + l2.b * l2.b = 0 := by
      have hle := Real.sqrt_eq_zero'.mp hC20
      nlinarith [mul_self_nonneg (aAdj2 l1 l2), mul_self_nonneg l2.b]
    have e1 : aAdj1 l1 l2 = 0 := by nlinarith [mul_self_nonneg l1.b]
    have e2 : l1.b = 0 := by nlinarith [mul_self_nonneg (aAdj1 l1 l2)]
    have e3 : aAdj2 l1 l2 = 0 := by nlinarith [mul_self_nonneg l2.b]
    have e4 : l2.b = 0 := by nlinarith [mul_self_nonneg (aAdj2 l1 l2)]
    rw [e1, e2, e3, e4]
    exact ⟨rfl, rfl⟩
  · have hsq : 0 < Real.sqrt (C1p l1 l2 * C2p l1 l2) := by
      apply Real.sqrt_pos.mpr
      rcases (mul_nonneg (Real.sqrt_nonneg _) (Real.sqrt_nonneg _) :
        (0:ℝ) ≤ C1p l1 l2 * C2p l1 l2).lt_or_eq with hlt | heq
      · exact hlt
      · exact absurd heq.symm hz
    have hsin : Real.sin (dhp l1 l2 * Real.pi / 360) = 0 := by
      unfold dHp at hH
      rcases mul_eq_zero.mp hH with h0 | h0
      · rcases mul_eq_zero.mp h0 with h00 | h00
        · norm_num at h00
        · exact absurd h00 (ne_of_gt hsq)
      · exact h0
    obtain ⟨⟨hd1, hd2⟩, hdz⟩ := dhp_bounds l1 l2
    have hpi := Real.pi_pos
    have hθ : dhp l1 l2 * Real.pi / 360 = 0 := by
      refine (Real.sin_eq_zero_iff_of_lt_of_lt ?_ ?_).mp hsin
      · rw [lt_div_iff₀ (by norm_num : (0:ℝ) < 360)]
        nlinarith
      · rw [div_lt_iff₀ (by norm_num : (0:ℝ) < 360)]
        nlinarith
    have hdhp0 : dhp l1 l2 = 0 := by
      have h360 : dhp l1 l2 * Real.pi = 0 := by
        field_simp at hθ
        tauto
      rcases mul_eq_zero.mp h360 with h0 | h0
      · exact h0
      · exact absurd h0 (ne_of_gt hpi)
    have hheq := hdz hdhp0 hz
    obtain ⟨hr1a, hr1b⟩ := atan2deg_mem l1.b (aAdj1 l1 l2)
    obtain ⟨hr2a, hr2b⟩ := atan2deg_mem l2.b (aAdj2 l1 l2)
    have hdeg : atan2 l1.b (aAdj1 l1 l2) * 180 / Real.pi =
        atan2 l2.b (aAdj2 l1 l2) * 180 / Real.pi := by
      have h2 := hheq
      simp only [h1pAdj, h2pAdj] at h2
      exact degAdj_inj hr1a hr1b hr2a hr2b h2
    have harg : Complex.arg ⟨aAdj1 l1 l2, l1.b⟩ = Complex.arg ⟨aAdj2 l1 l2, l2.b⟩ := by
      unfold atan2 at hdeg
      have hpne : Real.pi ≠ 0 := ne_of_gt hpi
      field_simp at hdeg
      exact hdeg
    have habs1 : Complex.abs ⟨aAdj1 l1 l2, l1.b⟩ = C1p l1 l2 := by
      unfold C1p
      rw [Complex.abs_apply, Complex.normSq_mk]
    have habs2 : Complex.abs ⟨aAdj2 l1 l2, l2.b⟩ = C2p l1 l2 := by
      unfold C2p
      rw [Complex.abs_apply, Complex.normSq_mk]
    have hz12 : (⟨aAdj1 l1 l2, l1.b⟩ : ℂ) = ⟨aAdj2 l1 l2, l2.b⟩ := by
      have e1 := Complex.abs_mul_exp_arg_mul_I (⟨aAdj1 l1 l2, l1.b⟩ : ℂ)
      have e2 := Complex.abs_mul_exp_arg_mul_I (⟨aAdj2 l1 l2, l2.b⟩ : ℂ)
      rw [← e1, ← e2, habs1, habs2, hC, harg]
    exact ⟨congrArg Complex.re hz12, congrArg Complex.im hz12⟩

/-- The CIEDE2000 distance between two Lab values vanishes exactly when the
two Lab values are equal. (Lifting this to distinct RGB triplets is blocked
by the `labF` branch overlap, `labF_branch_overlap`.) -/
lemma deltaE2000Lab_eq_zero_iff (l1 l2 : LabColor) :
    deltaE2000Lab l1 l2 = 0 ↔ l1 = l2 := by
  constructor
  · intro h
    unfold deltaE2000Lab at h
    have h0 : radicand l1 l2 = 0 :=
      le_antisymm (Real.sqrt_eq_zero'.mp h) (radicand_nonneg l1 l2)
    obtain ⟨hL, hCeq, hHp⟩ := radicand_eq_zero_parts h0
    obtain ⟨hap, hb⟩ := hue_eq_of hCeq hHp
    have hG : (0:ℝ) < 1 + Gfactor l1 l2 := by
      have := Gfactor_bounds l1 l2
      linarith
    have ha : l1.a = l2.a := by
      have h2 := hap
      unfold aAdj1 aAdj2 at h2
      exact mul_right_cancel₀ (ne_of_gt hG) h2
    cases l1
    cases l2
    simp only [LabColor.mk.injEq]
    exact ⟨hL, ha, hb⟩
  · rintro rfl
    unfold deltaE2000Lab
    rw [radicand_self, Real.sqrt_zero]

/-- For parsing inputs, `deltaE2000` vanishes exactly when the two colors
have identical Lab coordinates. -/
lemma deltaE2000_zero_iff_lab_eq {a b : String} {ca cb : Rgb}
    (ha : hexToRgb a = some ca) (hb : hexToRgb b = some cb) :
    (deltaE2000 a b = 0 ↔ rgbToLab ca = rgbToLab cb) := by
  unfold deltaE2000
  rw [ha, hb]
  show ((deltaE2000Lab (rgbToLab ca) (rgbToLab cb) : ℝ) : EReal) = 0 ↔ _
  rw [show ((0 : EReal) = ((0:ℝ) : EReal)) from rfl, EReal.coe_eq_coe_iff]
  exact deltaE2000Lab_eq_zero_iff _ _

end DesignSystem
